import Mathlib

/-
Verification of the YouTube data cache system in src/src/lib/youtube-cache.ts.

The embedding below translates the cache module into Lean:
timestamps are modelled as Nat (milliseconds since the epoch, as produced
by Date.now and ISO strings, which compare consistently with their numeric
instants), files on disk as a FileData value (absent, corrupt, or valid),
JavaScript object records as association lists keyed by String, and the
network as an oracle supplying page listings and per-id detail responses
together with failure flags for the two fetch stages (a failure stands for
fetchWithRetry exhausting its retries or throwing).  Each cache operation
returns, besides its value, the successor state and the list of observable
events (network requests, file writes, lock transitions) it performs.
-/

set_option autoImplicit false

namespace YoutubeCache

/- ## Data model (interfaces YouTubeVideo, CachedPlaylist, CacheMetadata) -/

structure ThumbnailInfo where
  url : String
  width : Option Nat := none
  height : Option Nat := none
deriving DecidableEq

structure Thumbnails where
  default : Option ThumbnailInfo := none
  medium : Option ThumbnailInfo := none
  high : Option ThumbnailInfo := none
  standard : Option ThumbnailInfo := none
  maxres : Option ThumbnailInfo := none
deriving DecidableEq

structure YouTubeVideo where
  id : String
  title : String
  description : String
  url : String
  publishedAt : String
  duration : Option String := none
  channelId : String
  channelTitle : String
  thumbnails : Thumbnails
  tags : Option (List String) := none
  categoryId : Option String := none
  viewCount : Option String := none
  likeCount : Option String := none
  commentCount : Option String := none
deriving DecidableEq

structure CachedPlaylist where
  id : String
  name : String
  lastFetched : Nat
  isComplete : Bool
  videoCount : Nat
  videos : List YouTubeVideo
deriving DecidableEq

structure PlaylistMeta where
  lastFetched : Nat
  isComplete : Bool
  videoCount : Nat
deriving DecidableEq

structure ChannelMeta where
  lastFetched : Nat
  videoCount : Nat
deriving DecidableEq

structure CacheMetadata where
  lastUpdated : Nat
  playlists : List (String × PlaylistMeta)
  channel : Option ChannelMeta := none
deriving DecidableEq

/- ## Cache configuration constants -/

def CACHE_TTL_HOURS : Nat := 24
def FETCH_DELAY_MS : Nat := 500
def MAX_RETRIES : Nat := 3
def LOCK_TIMEOUT_MS : Nat := 30000
def METADATA_CACHE_TTL_MS : Nat := 5000

/- ## Files on disk -/

/-- A file slot: missing, present-but-unparsable, or present with parsed
content.  Mirrors the uniform treatment in the source where every read
wraps JSON.parse in a try/catch. -/
inductive FileData (α : Type) where
  | absent
  | corrupt
  | valid (a : α)
deriving DecidableEq

/- ## Association-list model of JavaScript string-keyed records -/

def recordLookup {α : Type} : List (String × α) → String → Option α
  | [], _ => none
  | (k, v) :: rest, key => if k = key then some v else recordLookup rest key

/-- Model of the JavaScript object spread merge used by saveMetadata:
keys of cur keep their position but are overridden by upd where present;
keys only in upd are appended. -/
def spreadMerge {α : Type} (cur upd : List (String × α)) : List (String × α) :=
  cur.map (fun p =>
    match recordLookup upd p.1 with
    | some v => (p.1, v)
    | none => p)
  ++ upd.filter (fun q => (recordLookup cur q.1).isNone)

/-- Model of writing one file in a keyed directory of files. -/
def recordInsert {α : Type} : List (String × α) → String → α → List (String × α)
  | [], key, v => [(key, v)]
  | (k, w) :: rest, key, v =>
    if k = key then (key, v) :: rest else (k, w) :: recordInsert rest key v

theorem recordLookup_append {α : Type} (a b : List (String × α)) (k : String) :
    recordLookup (a ++ b) k =
      match recordLookup a k with
      | some v => some v
      | none => recordLookup b k := by
  induction a with
  | nil => simp [recordLookup]
  | cons p rest ih =>
    obtain ⟨k', v'⟩ := p
    by_cases h : k' = k <;> simp [recordLookup, h, ih]

theorem recordLookup_map_override {α : Type} (cur upd : List (String × α)) (k : String) :
    recordLookup (cur.map (fun p =>
        match recordLookup upd p.1 with
        | some v => (p.1, v)
        | none => p)) k =
      (recordLookup cur k).map (fun v => (recordLookup upd k).getD v) := by
  induction cur with
  | nil => simp [recordLookup]
  | cons p rest ih =>
    obtain ⟨k', v'⟩ := p
    by_cases h : k' = k
    · subst h
      cases hu : recordLookup upd k' <;> simp [recordLookup, hu]
    · cases hu : recordLookup upd k' <;> simp [recordLookup, h, ih, hu]

theorem recordLookup_filter_key {α : Type} (l : List (String × α)) (f : String → Bool)
    (k : String) :
    recordLookup (l.filter (fun q => f q.1)) k =
      if f k then recordLookup l k else none := by
  induction l with
  | nil => simp [recordLookup]
  | cons p rest ih =>
    obtain ⟨k', v'⟩ := p
    by_cases h : k' = k
    · subst h
      cases hf : f k' <;> simp [recordLookup, hf, ih]
    · cases hf : f k' <;> simp [recordLookup, h, hf, ih]

/-- Lookup law for the spread merge: an entry named in the update wins,
every other key keeps its previous value. -/
theorem recordLookup_spreadMerge {α : Type} (cur upd : List (String × α)) (k : String) :
    recordLookup (spreadMerge cur upd) k =
      match recordLookup upd k with
      | some v => some v
      | none => recordLookup cur k := by
  unfold spreadMerge
  rw [recordLookup_append, recordLookup_map_override,
    recordLookup_filter_key upd (fun s => (recordLookup cur s).isNone) k]
  cases hc : recordLookup cur k <;> cases hu : recordLookup upd k <;> simp [hc, hu]

theorem recordLookup_recordInsert {α : Type} (l : List (String × α)) (key k : String)
    (v : α) :
    recordLookup (recordInsert l key v) k =
      if key = k then some v else recordLookup l k := by
  induction l with
  | nil => by_cases h : key = k <;> simp [recordInsert, recordLookup, h]
  | cons p rest ih =>
    obtain ⟨k', v'⟩ := p
    by_cases h1 : k' = key
    · subst h1
      by_cases h2 : k' = k <;> simp [recordInsert, recordLookup, h2, ih]
    · by_cases h2 : k' = k
      · subst h2
        have : ¬ key = k' := fun h => h1 h.symm
        simp [recordInsert, recordLookup, h1, this]
      · simp [recordInsert, recordLookup, h1, h2, ih]

/- ## Cache directory state and observable events -/

/-- The shared mutable world: the files of the cache directory plus the
module-level in-memory metadata cache.  The lock file stores the result of
parsing its content with parseInt: some t when the content is a number t,
none when the content does not parse (parseInt yields NaN). -/
structure CacheState where
  metadataFile : FileData CacheMetadata
  playlistFiles : List (String × FileData CachedPlaylist)
  channelFile : FileData (List YouTubeVideo)
  lockFile : Option (Option Nat)
  metadataCache : Option CacheMetadata
  metadataCacheTime : Nat
deriving DecidableEq

inductive Event where
  | netListPage
  | netDetails (ids : List String)
  | writeSnapshot (playlistId : String)
  | writeMetadata
  | lockAcquire
  | lockRelease
deriving DecidableEq

def isNetEvent : Event → Bool
  | .netListPage => true
  | .netDetails _ => true
  | _ => false

def netCallCount (evs : List Event) : Nat := (evs.filter isNetEvent).length

/-- Number of video ids carried by detail (videos endpoint) requests. -/
def detailIdCount : List Event → Nat
  | [] => 0
  | Event.netDetails ids :: rest => ids.length + detailIdCount rest
  | _ :: rest => detailIdCount rest

/-- Scans a trace tracking whether the lock is held; true iff every
metadata write happens while the lock is held. -/
def ledgerWritesLockedAux : Bool → List Event → Bool
  | _, [] => true
  | _, Event.lockAcquire :: rest => ledgerWritesLockedAux true rest
  | _, Event.lockRelease :: rest => ledgerWritesLockedAux false rest
  | held, Event.writeMetadata :: rest => held && ledgerWritesLockedAux held rest
  | held, _ :: rest => ledgerWritesLockedAux held rest

def ledgerWritesLocked (evs : List Event) : Bool := ledgerWritesLockedAux false evs

/- ## Lock (acquireLock / releaseLock) -/

/-- One pass of the acquireLock polling loop (single-process view: no
interference between the exclusive-create attempt and the staleness
inspection).  Date.now() is start at entry and advances by 50 on each
delay(50); the stale-removal continue re-enters the loop without delay.
A marker whose content did not parse gives parseInt = NaN, and the JS
comparison (now - NaN) > LOCK_TIMEOUT_MS is false, so the marker is
treated as not stale and the loop just sleeps and retries.  The fuel
bounds the iteration count; 602 iterations always suffice for a 30000 ms
window polled at 50 ms. -/
def acquireLoop : Nat → Nat → Nat → CacheState → Bool × CacheState × List Event
  | 0, _, _, st => (false, st, [])
  | fuel + 1, start, now, st =>
    if now - start < LOCK_TIMEOUT_MS then
      match st.lockFile with
      | none => (true, { st with lockFile := some (some now) }, [Event.lockAcquire])
      | some (some lockTime) =>
        if LOCK_TIMEOUT_MS < now - lockTime then
          acquireLoop fuel start now { st with lockFile := none }
        else
          acquireLoop fuel start (now + 50) st
      | some none =>
        acquireLoop fuel start (now + 50) st
    else (false, st, [])

def acquireLock (now : Nat) (st : CacheState) : Bool × CacheState × List Event :=
  acquireLoop (LOCK_TIMEOUT_MS / 50 + 2) now now st

def releaseLock (st : CacheState) : CacheState := { st with lockFile := none }

/- ## Metadata ledger (getMetadata / saveMetadata / saveMetadataAsync) -/

def emptyMetadata (now : Nat) : CacheMetadata :=
  { lastUpdated := now, playlists := [], channel := none }

def getMetadataFromDisk (now : Nat) (st : CacheState) : CacheMetadata × CacheState :=
  match st.metadataFile with
  | .valid m =>
    (m, { st with metadataCache := some m, metadataCacheTime := now })
  | _ =>
    (emptyMetadata now,
     { st with metadataCache := some (emptyMetadata now), metadataCacheTime := now })

def getMetadata (now : Nat) (st : CacheState) : CacheMetadata × CacheState :=
  match st.metadataCache with
  | some m =>
    if now - st.metadataCacheTime < METADATA_CACHE_TTL_MS then (m, st)
    else getMetadataFromDisk now st
  | none => getMetadataFromDisk now st

/-- The re-read step of both save paths: parse the on-disk ledger, fall
back to an empty one when absent or corrupt. -/
def readMetadataFileOrEmpty (now : Nat) (st : CacheState) : CacheMetadata :=
  match st.metadataFile with
  | .valid m => m
  | _ => emptyMetadata now

def mergeMetadata (now : Nat) (current metadata : CacheMetadata) : CacheMetadata :=
  { lastUpdated := now,
    playlists := spreadMerge current.playlists metadata.playlists,
    channel :=
      match metadata.channel with
      | some c => some c
      | none => current.channel }

/-- Synchronous saveMetadata: re-read, merge, atomic write, refresh the
in-memory cache.  Note that it takes the lock nowhere. -/
def saveMetadata (now : Nat) (st : CacheState) (metadata : CacheMetadata) :
    CacheState × List Event :=
  let merged := mergeMetadata now (readMetadataFileOrEmpty now st) metadata
  ({ st with metadataFile := .valid merged,
             metadataCache := some merged,
             metadataCacheTime := now },
   [Event.writeMetadata])

/-- saveMetadataAsync: acquire the lock, bail out with a warning when not
granted, otherwise re-read, merge, write, refresh, and release in the
finally block.  (Wall-clock time spent polling for the lock is not
threaded into the merge timestamp; no proved property depends on it.) -/
def saveMetadataAsync (now : Nat) (st : CacheState) (metadata : CacheMetadata) :
    CacheState × List Event :=
  let acq := acquireLock now st
  if acq.1 then
    let merged := mergeMetadata now (readMetadataFileOrEmpty now acq.2.1) metadata
    (releaseLock
      { acq.2.1 with metadataFile := .valid merged,
                     metadataCache := some merged,
                     metadataCacheTime := now },
     acq.2.2 ++ [Event.writeMetadata, Event.lockRelease])
  else (acq.2.1, acq.2.2)

/- ## Playlist snapshot files -/

def readPlaylistFile (st : CacheState) (playlistId : String) : FileData CachedPlaylist :=
  (recordLookup st.playlistFiles playlistId).getD .absent

def getCachedPlaylist (st : CacheState) (playlistId : String) : Option CachedPlaylist :=
  match readPlaylistFile st playlistId with
  | .valid p => some p
  | _ => none

def savePlaylistCache (st : CacheState) (playlist : CachedPlaylist) : CacheState :=
  { st with playlistFiles := recordInsert st.playlistFiles playlist.id (.valid playlist) }

/- ## Staleness (isCacheStale) -/

/-- hoursSinceUpdate > CACHE_TTL_HOURS rewritten over integral
milliseconds: (now - lastFetched) / 3600000 > 24 iff
now - lastFetched > 24 * 3600000; truncated Nat subtraction agrees with
the JS comparison also when lastFetched lies in the future (a negative
age is not greater than the TTL). -/
def isCacheStale (now lastFetched : Nat) (isComplete : Bool) : Bool :=
  if isComplete then false
  else decide (CACHE_TTL_HOURS * 60 * 60 * 1000 < now - lastFetched)

/- ## Remote fetcher (fetchPlaylistItems / fetchVideoDetails) -/

/-- The network oracle: the pages of the listing endpoint (each page the video
ids of its items that carry contentDetails.videoId; nextPageToken is
present exactly while further pages remain), a per-id detail response,
and one failure flag per fetch stage standing for fetchWithRetry throwing
after exhausting its retries. -/
structure Network where
  pages : List (List String)
  listingFails : Bool
  detailsOf : String → Option YouTubeVideo
  detailsFail : Bool

/-- The do-while page loop of fetchPlaylistItems: one request per
iteration (a request past the last page answers no items and no token);
after appending a page it breaks when the accumulated count has reached
maxResults, otherwise continues while a nextPageToken is present.
Returns the accumulated ids and the listing-request events. -/
def fetchPlaylistItemsLoop : List (List String) → List String → Nat →
    List String × List Event
  | [], acc, _ => (acc, [Event.netListPage])
  | page :: rest, acc, maxResults =>
    let acc2 := acc ++ page
    if maxResults ≤ acc2.length then (acc2, [Event.netListPage])
    else
      match rest with
      | [] => (acc2, [Event.netListPage])
      | _ :: _ =>
        let r := fetchPlaylistItemsLoop rest acc2 maxResults
        (r.1, Event.netListPage :: r.2)

/-- fetchPlaylistItems: run the page loop, then slice(0, maxResults). -/
def fetchPlaylistItems (pages : List (List String)) (maxResults : Nat) :
    List String × List Event :=
  let r := fetchPlaylistItemsLoop pages [] maxResults
  (r.1.take maxResults, r.2)

/-- The batching of fetchVideoDetails: slices of at most 50 ids. -/
def batches (ids : List String) : List (List String) :=
  if h : ids = [] then []
  else ids.take 50 :: batches (ids.drop 50)
termination_by ids.length
decreasing_by
  simpa using Nat.sub_lt (List.length_pos.mpr h) (by decide : (0 : Nat) < 50)

/-- One detail request per batch; the response items for a batch are the
items the oracle has for its ids, assembled in request order. -/
def fetchVideoDetailsLoop (detailsOf : String → Option YouTubeVideo) :
    List (List String) → List YouTubeVideo × List Event
  | [] => ([], [])
  | b :: rest =>
    let r := fetchVideoDetailsLoop detailsOf rest
    (b.filterMap detailsOf ++ r.1, Event.netDetails b :: r.2)

def fetchVideoDetails (detailsOf : String → Option YouTubeVideo) (ids : List String) :
    List YouTubeVideo × List Event :=
  fetchVideoDetailsLoop detailsOf (batches ids)

/- ## Orchestrator (loadPlaylistWithCache) -/

structure LoadOptions where
  maxResults : Nat := 1000
  forceRefresh : Bool := false
  isComplete : Bool := false
  cacheOnly : Bool := false

structure LoadResult where
  videos : List YouTubeVideo
  events : List Event
  state : CacheState

/-- The early-return branch: cached data is used when a snapshot exists,
forceRefresh is off, and either the ledger entry is fresh or cacheOnly is
set.  A missing ledger entry counts as needing a refetch. -/
def cacheHit (now : Nat) (metadata : CacheMetadata) (cached : Option CachedPlaylist)
    (playlistId : String) (opts : LoadOptions) : Option (List YouTubeVideo) :=
  match cached with
  | none => none
  | some c =>
    if opts.forceRefresh then none
    else
      let shouldRefetch :=
        match recordLookup metadata.playlists playlistId with
        | none => true
        | some pm => isCacheStale now pm.lastFetched pm.isComplete
      if !shouldRefetch || opts.cacheOnly then some c.videos else none

/-- cached?.videos || [] (a JS array is always truthy, so the fallback
fires exactly when no snapshot parsed). -/
def staleFallback : Option CachedPlaylist → List YouTubeVideo
  | some c => c.videos
  | none => []

/-- loadPlaylistWithCache.  The try block is laid out as its three exit
points: listing failure and detail failure land in the catch (which
serves the stale snapshot or empty), an empty id list returns the prior
snapshot untouched, and the success path writes the snapshot file and
then the ledger through the synchronous, lock-free saveMetadata.  On a
detail-stage failure the trace records the first batch request. -/
def loadPlaylistWithCache (now : Nat) (st : CacheState) (net : Network)
    (playlistId playlistName : String) (opts : LoadOptions) : LoadResult :=
  let mp := getMetadata now st
  let metadata := mp.1
  let st1 := mp.2
  let cached := getCachedPlaylist st1 playlistId
  match cacheHit now metadata cached playlistId opts with
  | some vs => ⟨vs, [], st1⟩
  | none =>
    if opts.cacheOnly then ⟨[], [], st1⟩
    else if net.listingFails then
      ⟨staleFallback cached, [Event.netListPage], st1⟩
    else
      let fp := fetchPlaylistItems net.pages opts.maxResults
      let videoIds := fp.1
      if videoIds = [] then ⟨staleFallback cached, fp.2, st1⟩
      else if net.detailsFail then
        ⟨staleFallback cached, fp.2 ++ [Event.netDetails (videoIds.take 50)], st1⟩
      else
        let fd := fetchVideoDetails net.detailsOf videoIds
        let videos := fd.1
        let playlistCache : CachedPlaylist :=
          { id := playlistId, name := playlistName, lastFetched := now,
            isComplete := opts.isComplete, videoCount := videos.length,
            videos := videos }
        let st2 := savePlaylistCache st1 playlistCache
        let newMetadata : CacheMetadata :=
          { lastUpdated := now,
            playlists := [(playlistId,
              { lastFetched := now, isComplete := opts.isComplete,
                videoCount := videos.length })],
            channel := none }
        let sm := saveMetadata now st2 newMetadata
        ⟨videos, fp.2 ++ fd.2 ++ [Event.writeSnapshot playlistId] ++ sm.2, sm.1⟩

/- ## Helper lemmas -/

theorem getMetadataFromDisk_preserves (now : Nat) (st : CacheState) :
    (getMetadataFromDisk now st).2.metadataFile = st.metadataFile ∧
    (getMetadataFromDisk now st).2.playlistFiles = st.playlistFiles ∧
    (getMetadataFromDisk now st).2.channelFile = st.channelFile ∧
    (getMetadataFromDisk now st).2.lockFile = st.lockFile := by
  unfold getMetadataFromDisk
  split <;> exact ⟨rfl, rfl, rfl, rfl⟩

theorem getMetadata_preserves (now : Nat) (st : CacheState) :
    (getMetadata now st).2.metadataFile = st.metadataFile ∧
    (getMetadata now st).2.playlistFiles = st.playlistFiles ∧
    (getMetadata now st).2.channelFile = st.channelFile ∧
    (getMetadata now st).2.lockFile = st.lockFile := by
  unfold getMetadata
  split
  · split
    · exact ⟨rfl, rfl, rfl, rfl⟩
    · exact getMetadataFromDisk_preserves now st
  · exact getMetadataFromDisk_preserves now st

theorem getCachedPlaylist_getMetadata (now : Nat) (st : CacheState) (playlistId : String) :
    getCachedPlaylist (getMetadata now st).2 playlistId =
      getCachedPlaylist st playlistId := by
  unfold getCachedPlaylist readPlaylistFile
  rw [(getMetadata_preserves now st).2.1]

/- ## Claim theorems -/

/-- C1: for every cache state and playlist id, loadPlaylistWithCache with
cacheOnly set performs no network call at all (the trace is empty, so the
fetch branch is unreachable), and when no snapshot parses for the id it
returns the empty list. -/
theorem c1_cache_only_never_fetches (now : Nat) (st : CacheState) (net : Network)
    (playlistId playlistName : String) (opts : LoadOptions)
    (h : opts.cacheOnly = true) :
    (loadPlaylistWithCache now st net playlistId playlistName opts).events = [] ∧
    (getCachedPlaylist st playlistId = none →
      (loadPlaylistWithCache now st net playlistId playlistName opts).videos = []) := by
  constructor
  · simp only [loadPlaylistWithCache]
    split
    · rfl
    · simp [h]
  · intro hc
    simp [loadPlaylistWithCache, cacheHit, getCachedPlaylist_getMetadata, hc, h]

/-- C1 witness: a concrete cache-only run on an empty cache makes no
network call and returns the empty list. -/
theorem c1_witness :
    (loadPlaylistWithCache 0
      ⟨.absent, [], .absent, none, none, 0⟩
      ⟨[["v1"]], false, fun _ => none, false⟩
      "PL1" "Lessons" ⟨1000, false, false, true⟩).events = [] ∧
    (loadPlaylistWithCache 0
      ⟨.absent, [], .absent, none, none, 0⟩
      ⟨[["v1"]], false, fun _ => none, false⟩
      "PL1" "Lessons" ⟨1000, false, false, true⟩).videos = [] := by
  have h := c1_cache_only_never_fetches 0
    ⟨.absent, [], .absent, none, none, 0⟩
    ⟨[["v1"]], false, fun _ => none, false⟩
    "PL1" "Lessons" ⟨1000, false, false, true⟩ rfl
  exact ⟨h.1, h.2 rfl⟩

/-- C2: a complete ledger entry is never stale, however old its
lastFetched; consequently with forceRefresh off and a snapshot whose
ledger entry is marked complete, loadPlaylistWithCache returns the cached
videos with an empty trace (no network call). -/
theorem c2_complete_freezes_freshness :
    (∀ now lastFetched : Nat, isCacheStale now lastFetched true = false) ∧
    ∀ (now : Nat) (st : CacheState) (net : Network)
      (playlistId playlistName : String) (opts : LoadOptions)
      (c : CachedPlaylist) (pm : PlaylistMeta),
      opts.forceRefresh = false →
      getCachedPlaylist st playlistId = some c →
      recordLookup (getMetadata now st).1.playlists playlistId = some pm →
      pm.isComplete = true →
      (loadPlaylistWithCache now st net playlistId playlistName opts).videos = c.videos ∧
      (loadPlaylistWithCache now st net playlistId playlistName opts).events = [] := by
  constructor
  · intro now lastFetched
    simp [isCacheStale]
  · intro now st net playlistId playlistName opts c pm hf hc hm hcomp
    have hhit : cacheHit now (getMetadata now st).1
        (getCachedPlaylist (getMetadata now st).2 playlistId) playlistId opts =
        some c.videos := by
      rw [getCachedPlaylist_getMetadata, hc]
      simp [cacheHit, hf, hm, hcomp, isCacheStale]
    constructor <;>
      · simp only [loadPlaylistWithCache]
        rw [hhit]

/-- C2 witness: a snapshot 1000 hours old whose ledger entry is complete
is served from cache with no network call. -/
theorem c2_witness :
    isCacheStale 3600000000 0 true = false ∧
    (loadPlaylistWithCache 3600000000
      ⟨.valid ⟨3600000000, [("PL1", ⟨0, true, 0⟩)], none⟩,
       [("PL1", .valid ⟨"PL1", "Lessons", 0, true, 0, []⟩)],
       .absent, none, none, 0⟩
      ⟨[["v1"]], false, fun _ => none, false⟩
      "PL1" "Lessons" ⟨1000, false, false, false⟩).videos = [] := by
  refine ⟨c2_complete_freezes_freshness.1 3600000000 0, ?_⟩
  have h := (c2_complete_freezes_freshness.2 3600000000
    ⟨.valid ⟨3600000000, [("PL1", ⟨0, true, 0⟩)], none⟩,
     [("PL1", .valid ⟨"PL1", "Lessons", 0, true, 0, []⟩)],
     .absent, none, none, 0⟩
    ⟨[["v1"]], false, fun _ => none, false⟩
    "PL1" "Lessons" ⟨1000, false, false, false⟩
    ⟨"PL1", "Lessons", 0, true, 0, []⟩ ⟨0, true, 0⟩
    rfl (by decide) (by decide) rfl).1
  simpa using h

/-- C10: with both cacheOnly and forceRefresh set, an existing snapshot is
not returned: the cached-data branch is guarded on forceRefresh being
false, and the cache-only short circuit then returns the empty list. -/
theorem c10_force_refresh_cache_only_empty (now : Nat) (st : CacheState)
    (net : Network) (playlistId playlistName : String) (opts : LoadOptions)
    (c : CachedPlaylist)
    (hco : opts.cacheOnly = true) (hfr : opts.forceRefresh = true)
    (hc : getCachedPlaylist st playlistId = some c) :
    (loadPlaylistWithCache now st net playlistId playlistName opts).videos = [] := by
  simp [loadPlaylistWithCache, cacheHit, getCachedPlaylist_getMetadata, hc, hfr, hco]

/-- C10 witness: a concrete run with a cached snapshot, cacheOnly and
forceRefresh both set, returns the empty list. -/
theorem c10_witness :
    (loadPlaylistWithCache 0
      ⟨.absent, [("PL1", .valid ⟨"PL1", "Lessons", 0, false, 0, []⟩)],
       .absent, none, none, 0⟩
      ⟨[["v1"]], false, fun _ => none, false⟩
      "PL1" "Lessons" ⟨1000, true, false, true⟩).videos = [] :=
  c10_force_refresh_cache_only_empty 0
    ⟨.absent, [("PL1", .valid ⟨"PL1", "Lessons", 0, false, 0, []⟩)],
     .absent, none, none, 0⟩
    ⟨[["v1"]], false, fun _ => none, false⟩
    "PL1" "Lessons" ⟨1000, true, false, true⟩
    ⟨"PL1", "Lessons", 0, false, 0, []⟩ rfl rfl (by decide)

theorem cacheHit_some_staleFallback (now : Nat) (md : CacheMetadata)
    (cached : Option CachedPlaylist) (playlistId : String) (opts : LoadOptions)
    (vs : List YouTubeVideo) (h : cacheHit now md cached playlistId opts = some vs) :
    vs = staleFallback cached := by
  cases cached with
  | none => simp [cacheHit] at h
  | some c =>
    cases hfr : opts.forceRefresh with
    | true => simp [cacheHit, hfr] at h
    | false =>
      simp only [cacheHit, hfr, Bool.false_eq_true, if_false] at h
      split at h
      · exact (Option.some.inj h).symm
      · exact absurd h (by simp)

/-- C4: with cacheOnly off, a fetch that fails at the listing stage or at
the detail stage makes loadPlaylistWithCache return the existing
videos of the snapshot when one exists and the empty list otherwise; the error
is absorbed, never raised to the caller (the function is total in the
model precisely because the catch block handles every fetch-stage
failure). -/
theorem c4_stale_fallback_on_failure (now : Nat) (st : CacheState) (net : Network)
    (playlistId playlistName : String) (opts : LoadOptions)
    (hco : opts.cacheOnly = false)
    (hfail : net.listingFails = true ∨ net.detailsFail = true) :
    (loadPlaylistWithCache now st net playlistId playlistName opts).videos =
      staleFallback (getCachedPlaylist st playlistId) := by
  simp only [loadPlaylistWithCache]
  rw [getCachedPlaylist_getMetadata]
  split
  next vs heq => exact cacheHit_some_staleFallback _ _ _ _ _ _ heq
  next heq =>
    cases hl : net.listingFails with
    | true => simp [hco, hl]
    | false =>
      have hd : net.detailsFail = true := by
        rcases hfail with h | h
        · rw [hl] at h
          exact absurd h (by simp)
        · exact h
      simp only [hco, hl, Bool.false_eq_true, if_false]
      split
      · rfl
      · simp [hd]

def sampleVideo : YouTubeVideo :=
  { id := "v1", title := "t", description := "d",
    url := "https://www.youtube.com/watch?v=v1", publishedAt := "2024-01-01",
    duration := none, channelId := "c", channelTitle := "ct",
    thumbnails := ⟨none, none, none, none, none⟩, tags := none,
    categoryId := none, viewCount := none, likeCount := none,
    commentCount := none }

/-- C4 witness: a listing-stage failure over an existing snapshot returns
exactly the videos of that snapshot. -/
theorem c4_witness :
    (loadPlaylistWithCache 0
      ⟨.absent, [("PL1", .valid ⟨"PL1", "Lessons", 0, false, 1, [sampleVideo]⟩)],
       .absent, none, none, 0⟩
      ⟨[], true, fun _ => none, false⟩
      "PL1" "Lessons" ⟨1000, true, false, false⟩).videos = [sampleVideo] :=
  c4_stale_fallback_on_failure 0
    ⟨.absent, [("PL1", .valid ⟨"PL1", "Lessons", 0, false, 1, [sampleVideo]⟩)],
     .absent, none, none, 0⟩
    ⟨[], true, fun _ => none, false⟩
    "PL1" "Lessons" ⟨1000, true, false, false⟩ rfl (Or.inl rfl)

/-- C5: when the id listing of a refetch cycle comes back empty, the
videos of the prior snapshot are returned and neither the snapshot file (items and
lastFetched alike) nor the ledger file is written — a legitimately empty
upstream response never destroys existing item data. -/
theorem c5_empty_source_no_clobber (now : Nat) (st : CacheState) (net : Network)
    (playlistId playlistName : String) (opts : LoadOptions) (c : CachedPlaylist)
    (hco : opts.cacheOnly = false)
    (hlf : net.listingFails = false)
    (hids : (fetchPlaylistItems net.pages opts.maxResults).1 = [])
    (hc : getCachedPlaylist st playlistId = some c) :
    (loadPlaylistWithCache now st net playlistId playlistName opts).videos = c.videos ∧
    (loadPlaylistWithCache now st net playlistId playlistName opts).state.playlistFiles =
      st.playlistFiles ∧
    (loadPlaylistWithCache now st net playlistId playlistName opts).state.metadataFile =
      st.metadataFile := by
  have hpres := getMetadata_preserves now st
  simp only [loadPlaylistWithCache]
  rw [getCachedPlaylist_getMetadata, hc]
  split
  next vs heq =>
    have hvs := cacheHit_some_staleFallback _ _ _ _ _ _ heq
    exact ⟨by simpa [staleFallback] using hvs, hpres.2.1, hpres.1⟩
  next heq =>
    simp [hco, hlf, hids, staleFallback]
    exact ⟨hpres.2.1, hpres.1⟩

/-- C5 witness: a snapshot holding one video survives a refetch whose
listing finds zero ids; the files are untouched and the video returned. -/
theorem c5_witness :
    (loadPlaylistWithCache 0
      ⟨.absent, [("PL1", .valid ⟨"PL1", "Lessons", 0, false, 1, [sampleVideo]⟩)],
       .absent, none, none, 0⟩
      ⟨[[]], false, fun _ => none, false⟩
      "PL1" "Lessons" ⟨1000, true, false, false⟩).videos = [sampleVideo] ∧
    (loadPlaylistWithCache 0
      ⟨.absent, [("PL1", .valid ⟨"PL1", "Lessons", 0, false, 1, [sampleVideo]⟩)],
       .absent, none, none, 0⟩
      ⟨[[]], false, fun _ => none, false⟩
      "PL1" "Lessons" ⟨1000, true, false, false⟩).state.playlistFiles =
      [("PL1", .valid ⟨"PL1", "Lessons", 0, false, 1, [sampleVideo]⟩)] := by
  have h := c5_empty_source_no_clobber 0
    ⟨.absent, [("PL1", .valid ⟨"PL1", "Lessons", 0, false, 1, [sampleVideo]⟩)],
     .absent, none, none, 0⟩
    ⟨[[]], false, fun _ => none, false⟩
    "PL1" "Lessons" ⟨1000, true, false, false⟩
    ⟨"PL1", "Lessons", 0, false, 1, [sampleVideo]⟩
    rfl rfl rfl (by decide)
  exact ⟨h.1, h.2.1⟩

theorem readMetadataFileOrEmpty_saveMetadata (now1 now2 : Nat) (st : CacheState)
    (upd : CacheMetadata) :
    readMetadataFileOrEmpty now2 (saveMetadata now1 st upd).1 =
      mergeMetadata now1 (readMetadataFileOrEmpty now1 st) upd := rfl

/-- C3: a saveMetadata call never removes or alters the ledger entry of a
playlist not named in the update, and two sequential updates
naming distinct playlists yield a ledger holding both entries. -/
theorem c3_ledger_merge_safety :
    (∀ (now : Nat) (st : CacheState) (upd : CacheMetadata) (x : String),
      recordLookup upd.playlists x = none →
      ∃ m, (saveMetadata now st upd).1.metadataFile = FileData.valid m ∧
        recordLookup m.playlists x =
          recordLookup (readMetadataFileOrEmpty now st).playlists x) ∧
    ∀ (now1 now2 : Nat) (st : CacheState) (a b : String) (ea eb : PlaylistMeta),
      a ≠ b →
      ∃ m,
        (saveMetadata now2 (saveMetadata now1 st ⟨now1, [(a, ea)], none⟩).1
            ⟨now2, [(b, eb)], none⟩).1.metadataFile = FileData.valid m ∧
        recordLookup m.playlists a = some ea ∧
        recordLookup m.playlists b = some eb := by
  constructor
  · intro now st upd x hx
    refine ⟨_, rfl, ?_⟩
    show recordLookup (spreadMerge (readMetadataFileOrEmpty now st).playlists
      upd.playlists) x = _
    rw [recordLookup_spreadMerge, hx]
  · intro now1 now2 st a b ea eb hab
    refine ⟨_, rfl, ?_, ?_⟩
    · show recordLookup (spreadMerge (spreadMerge
        (readMetadataFileOrEmpty now1 st).playlists [(a, ea)]) [(b, eb)]) a = some ea
      rw [recordLookup_spreadMerge, recordLookup_spreadMerge]
      simp [recordLookup, hab.symm]
    · show recordLookup (spreadMerge (spreadMerge
        (readMetadataFileOrEmpty now1 st).playlists [(a, ea)]) [(b, eb)]) b = some eb
      rw [recordLookup_spreadMerge]
      simp [recordLookup]

/-- C3 witness: updating playlist A then playlist B on an initially empty
ledger leaves both entries on disk. -/
theorem c3_witness :
    recordLookup (⟨0, [("B", ⟨2, false, 2⟩)], none⟩ : CacheMetadata).playlists "A" =
      none ∧
    ∃ m,
      (saveMetadata 2 (saveMetadata 1
          ⟨.absent, [], .absent, none, none, 0⟩
          ⟨1, [("A", ⟨1, true, 1⟩)], none⟩).1
        ⟨2, [("B", ⟨2, false, 2⟩)], none⟩).1.metadataFile = FileData.valid m ∧
      recordLookup m.playlists "A" = some ⟨1, true, 1⟩ ∧
      recordLookup m.playlists "B" = some ⟨2, false, 2⟩ :=
  ⟨by decide,
   c3_ledger_merge_safety.2 1 2 ⟨.absent, [], .absent, none, none, 0⟩
     "A" "B" ⟨1, true, 1⟩ ⟨2, false, 2⟩ (by decide)⟩

/-- C9: reading a playlist snapshot whose file is missing or unparsable
yields none rather than an error, and reading the ledger through an
invalid in-memory cache with the file missing or unparsable yields the
empty ledger stamped with the current time and no entries. -/
theorem c9_corrupt_reads_absent :
    (∀ (st : CacheState) (playlistId : String),
      (readPlaylistFile st playlistId = FileData.absent ∨
       readPlaylistFile st playlistId = FileData.corrupt) →
      getCachedPlaylist st playlistId = none) ∧
    ∀ (now : Nat) (st : CacheState),
      (st.metadataCache = none ∨ METADATA_CACHE_TTL_MS ≤ now - st.metadataCacheTime) →
      (st.metadataFile = FileData.absent ∨ st.metadataFile = FileData.corrupt) →
      (getMetadata now st).1 = emptyMetadata now := by
  constructor
  · intro st playlistId h
    rcases h with h | h <;> simp [getCachedPlaylist, h]
  · intro now st hcache hfile
    have hdisk : (getMetadataFromDisk now st).1 = emptyMetadata now := by
      rcases hfile with h | h <;> simp [getMetadataFromDisk, h]
    unfold getMetadata
    cases hc : st.metadataCache with
    | none => exact hdisk
    | some m =>
      rcases hcache with h | h
      · rw [hc] at h
        exact absurd h (by simp)
      · have hnot : ¬ (now - st.metadataCacheTime < METADATA_CACHE_TTL_MS) :=
          not_lt.mpr h
        simpa [hnot] using hdisk

/-- C9 witness: a corrupt playlist file reads as none, and a corrupt
ledger file with a cold in-memory cache reads as the empty ledger stamped
7 (the current time). -/
theorem c9_witness :
    (readPlaylistFile ⟨.corrupt, [("PL1", .corrupt)], .absent, none, none, 0⟩ "PL1" =
        FileData.corrupt ∨
      readPlaylistFile ⟨.corrupt, [("PL1", .corrupt)], .absent, none, none, 0⟩ "PL1" =
        FileData.absent) ∧
    getCachedPlaylist ⟨.corrupt, [("PL1", .corrupt)], .absent, none, none, 0⟩ "PL1" =
      none ∧
    (getMetadata 7 ⟨.corrupt, [("PL1", .corrupt)], .absent, none, none, 0⟩).1 =
      emptyMetadata 7 := by
  refine ⟨Or.inl (by decide), ?_, ?_⟩
  · exact c9_corrupt_reads_absent.1
      ⟨.corrupt, [("PL1", .corrupt)], .absent, none, none, 0⟩ "PL1"
      (Or.inr (by decide))
  · exact c9_corrupt_reads_absent.2 7
      ⟨.corrupt, [("PL1", .corrupt)], .absent, none, none, 0⟩
      (Or.inl rfl) (Or.inr rfl)

/- ## Pagination lemmas -/

/-- Ids accumulated after the first n listing pages. -/
def prefixIdCount (pages : List (List String)) (n : Nat) : Nat :=
  ((pages.take n).map List.length).sum

theorem fetchPlaylistItemsLoop_stops (pages : List (List String)) (acc : List String)
    (cap k : Nat) (hk : k + 1 < (fetchPlaylistItemsLoop pages acc cap).2.length) :
    acc.length + prefixIdCount pages (k + 1) < cap := by
  induction pages generalizing acc k with
  | nil => simp [fetchPlaylistItemsLoop] at hk
  | cons page rest ih =>
    simp only [fetchPlaylistItemsLoop] at hk
    by_cases hcap : cap ≤ acc.length + page.length
    · simp [hcap] at hk
    · cases rest with
      | nil => simp [hcap] at hk
      | cons p2 r2 =>
        rw [List.length_append, if_neg hcap] at hk
        dsimp only at hk
        simp only [List.length_cons] at hk
        cases k with
        | zero =>
          simp only [prefixIdCount, List.take_succ_cons, List.take_zero,
            List.map_cons, List.map_nil, List.sum_cons, List.sum_nil]
          omega
        | succ j =>
          have hrec := ih (acc ++ page) j (Nat.lt_of_succ_lt_succ hk)
          rw [List.length_append] at hrec
          simp only [prefixIdCount, List.take_succ_cons, List.map_cons,
            List.sum_cons] at hrec ⊢
          omega

theorem detailIdCount_fetchPlaylistItemsLoop (pages : List (List String))
    (acc : List String) (cap : Nat) :
    detailIdCount (fetchPlaylistItemsLoop pages acc cap).2 = 0 := by
  induction pages generalizing acc with
  | nil => rfl
  | cons page rest ih =>
    simp only [fetchPlaylistItemsLoop]
    split
    · rfl
    · cases rest with
      | nil => rfl
      | cons p2 r2 => simpa [detailIdCount] using ih (acc ++ page)

theorem detailIdCount_append (a b : List Event) :
    detailIdCount (a ++ b) = detailIdCount a + detailIdCount b := by
  induction a with
  | nil => simp [detailIdCount]
  | cons e rest ih => cases e <;> simp [detailIdCount, ih] <;> omega

theorem batches_flatten (ids : List String) : (batches ids).flatten = ids := by
  generalize hn : ids.length = n
  induction n using Nat.strong_induction_on generalizing ids with
  | _ n ih =>
    rw [batches]
    split
    · simp [*]
    · rename_i h
      have hlt : (ids.drop 50).length < n := by
        rw [← hn]
        simpa using Nat.sub_lt (List.length_pos.mpr h) (by decide : (0 : Nat) < 50)
      rw [List.flatten_cons, ih _ hlt (ids.drop 50) rfl, List.take_append_drop]

theorem detailIdCount_fetchVideoDetails (detailsOf : String → Option YouTubeVideo)
    (ids : List String) :
    detailIdCount (fetchVideoDetails detailsOf ids).2 = ids.length := by
  have hjoin : ((batches ids).map List.length).sum = ids.length := by
    rw [← List.length_flatten, batches_flatten]
  rw [fetchVideoDetails, ← hjoin]
  generalize batches ids = bs
  induction bs with
  | nil => rfl
  | cons b rest ih => simp [fetchVideoDetailsLoop, detailIdCount, ih]

theorem fetchPlaylistItems_length_le (pages : List (List String)) (cap : Nat) :
    (fetchPlaylistItems pages cap).1.length ≤ cap := by
  simp [fetchPlaylistItems, List.length_take]

/-- C7: the id list returned by the listing has length at most the cap; no
further page is requested once the ids accumulated so far have reached
the cap; detail requests collectively carry exactly the ids they are
given; and in every loadPlaylistWithCache run, the id count carried by
detail requests stays within the requested cap, the id list having been
truncated before detail batching. -/
theorem c7_pagination_cap :
    (∀ (pages : List (List String)) (cap : Nat),
      (fetchPlaylistItems pages cap).1.length ≤ cap) ∧
    (∀ (pages : List (List String)) (cap k : Nat),
      k + 1 < (fetchPlaylistItems pages cap).2.length →
      prefixIdCount pages (k + 1) < cap) ∧
    (∀ (detailsOf : String → Option YouTubeVideo) (ids : List String),
      detailIdCount (fetchVideoDetails detailsOf ids).2 = ids.length) ∧
    ∀ (now : Nat) (st : CacheState) (net : Network)
      (playlistId playlistName : String) (opts : LoadOptions),
      detailIdCount
        (loadPlaylistWithCache now st net playlistId playlistName opts).events ≤
        opts.maxResults := by
  refine ⟨fetchPlaylistItems_length_le, ?_, detailIdCount_fetchVideoDetails, ?_⟩
  · intro pages cap k hk
    simpa using fetchPlaylistItemsLoop_stops pages [] cap k hk
  · intro now st net playlistId playlistName opts
    simp only [loadPlaylistWithCache]
    split
    · exact Nat.zero_le _
    · split
      · exact Nat.zero_le _
      · split
        · exact Nat.zero_le _
        · have h1 : detailIdCount (fetchPlaylistItems net.pages opts.maxResults).2 = 0 :=
            detailIdCount_fetchPlaylistItemsLoop net.pages [] opts.maxResults
          split
          · exact h1 ▸ Nat.zero_le _
          · split
            · rw [detailIdCount_append]
              have h2 : ((fetchPlaylistItems net.pages opts.maxResults).1.take 50).length
                  ≤ opts.maxResults :=
                Nat.le_trans (by simp [List.length_take])
                  (fetchPlaylistItems_length_le net.pages opts.maxResults)
              simp only [h1, detailIdCount, Nat.zero_add, Nat.add_zero]
              exact h2
            · rw [detailIdCount_append, detailIdCount_append, detailIdCount_append]
              have h2 := detailIdCount_fetchVideoDetails net.detailsOf
                (fetchPlaylistItems net.pages opts.maxResults).1
              simp only [h1, h2, detailIdCount, Nat.zero_add, Nat.add_zero]
              exact fetchPlaylistItems_length_le net.pages opts.maxResults

/-- C7 witness: cap 3 against a source of three 2-id pages stops after the
second page, returns at most 3 ids, and the detail requests of a concrete run
carry at most 3 ids. -/
theorem c7_witness :
    (fetchPlaylistItems [["a", "b"], ["c", "d"], ["e", "f"]] 3).1.length ≤ 3 ∧
    (0 + 1 < (fetchPlaylistItems [["a", "b"], ["c", "d"], ["e", "f"]] 3).2.length ∧
      prefixIdCount [["a", "b"], ["c", "d"], ["e", "f"]] (0 + 1) < 3) ∧
    detailIdCount (fetchVideoDetails (fun _ => none) ["a", "b", "c"]).2 =
      (["a", "b", "c"] : List String).length ∧
    detailIdCount (loadPlaylistWithCache 0 ⟨.absent, [], .absent, none, none, 0⟩
      ⟨[["a", "b"], ["c", "d"], ["e", "f"]], false, fun _ => some sampleVideo, false⟩
      "PL1" "Lessons" ⟨3, true, false, false⟩).events ≤ 3 :=
  ⟨c7_pagination_cap.1 [["a", "b"], ["c", "d"], ["e", "f"]] 3,
   ⟨by decide, c7_pagination_cap.2.1 [["a", "b"], ["c", "d"], ["e", "f"]] 3 0 (by decide)⟩,
   c7_pagination_cap.2.2.1 (fun _ => none) ["a", "b", "c"],
   c7_pagination_cap.2.2.2 0 ⟨.absent, [], .absent, none, none, 0⟩
     ⟨[["a", "b"], ["c", "d"], ["e", "f"]], false, fun _ => some sampleVideo, false⟩
     "PL1" "Lessons" ⟨3, true, false, false⟩⟩

/- ## Lock acquisition lemmas -/

theorem acquireLoop_events (fuel : Nat) : ∀ (start now : Nat) (st : CacheState),
    ((acquireLoop fuel start now st).1 = true →
      (acquireLoop fuel start now st).2.2 = [Event.lockAcquire]) ∧
    ((acquireLoop fuel start now st).1 = false →
      (acquireLoop fuel start now st).2.2 = []) := by
  induction fuel with
  | zero => exact fun start now st => ⟨fun h => by simp [acquireLoop] at h, fun _ => rfl⟩
  | succ fuel ih =>
    intro start now st
    simp only [acquireLoop]
    split
    · split
      · exact ⟨fun _ => rfl, fun h => by simp at h⟩
      · split
        · exact ih start now _
        · exact ih start (now + 50) st
      · exact ih start (now + 50) st
    · exact ⟨fun h => by simp at h, fun _ => rfl⟩

theorem acquireLoop_succ (fuel start now : Nat) (st : CacheState) :
    acquireLoop (fuel + 1) start now st =
      if now - start < LOCK_TIMEOUT_MS then
        match st.lockFile with
        | none => (true, { st with lockFile := some (some now) }, [Event.lockAcquire])
        | some (some lockTime) =>
          if LOCK_TIMEOUT_MS < now - lockTime then
            acquireLoop fuel start now { st with lockFile := none }
          else acquireLoop fuel start (now + 50) st
        | some none => acquireLoop fuel start (now + 50) st
      else (false, st, []) := rfl

theorem acquireLoop_unparsable (fuel : Nat) : ∀ (start now : Nat) (st : CacheState),
    st.lockFile = some none →
    (acquireLoop fuel start now st).1 = false ∧
    (acquireLoop fuel start now st).2.1.lockFile = some none := by
  induction fuel with
  | zero => exact fun start now st h => ⟨rfl, h⟩
  | succ fuel ih =>
    intro start now st h
    simp only [acquireLoop]
    split
    · rw [h]
      exact ih start (now + 50) st h
    · exact ⟨rfl, h⟩

/-- C8 counterexample: a present lock marker whose content does not parse
as a number (parseInt yields NaN) is never removed — the acquisition loop
polls until its overall timeout and returns not-granted with the marker
still in place, refuting the claim that an unparsable marker is removed
and acquisition proceeds. -/
theorem c8_counterexample :
    (acquireLock 0 ⟨.absent, [], .absent, some none, none, 0⟩).1 = false ∧
    (acquireLock 0 ⟨.absent, [], .absent, some none, none, 0⟩).2.1.lockFile =
      some none :=
  by
    unfold acquireLock
    exact acquireLoop_unparsable (LOCK_TIMEOUT_MS / 50 + 2) 0 0
      ⟨.absent, [], .absent, some none, none, 0⟩ rfl

/-- C8 amended: a lock marker whose embedded timestamp is older than the
timeout threshold is removed and the immediately following creation
attempt succeeds, well within the overall timeout of the caller and with no
external intervention; a marker whose content does not parse as a number,
however, is treated as never stale (the NaN age comparison is false), so
acquisition retries until the overall timeout elapses and returns
not-granted, leaving the marker in place. -/
theorem c8_lock_reclamation_amended :
    (∀ (now t : Nat) (st : CacheState),
      st.lockFile = some (some t) →
      LOCK_TIMEOUT_MS < now - t →
      (acquireLock now st).1 = true ∧
      (acquireLock now st).2.1.lockFile = some (some now) ∧
      (acquireLock now st).2.2 = [Event.lockAcquire]) ∧
    ∀ (now : Nat) (st : CacheState),
      st.lockFile = some none →
      (acquireLock now st).1 = false ∧
      (acquireLock now st).2.1.lockFile = some none := by
  constructor
  · intro now t st hlock hstale
    unfold acquireLock
    have h602 : LOCK_TIMEOUT_MS / 50 + 2 = 600 + 1 + 1 := by
      norm_num [LOCK_TIMEOUT_MS]
    rw [h602, acquireLoop_succ, Nat.sub_self,
      if_pos (by norm_num [LOCK_TIMEOUT_MS] : (0 : Nat) < LOCK_TIMEOUT_MS), hlock]
    dsimp only
    rw [if_pos hstale, acquireLoop_succ, Nat.sub_self,
      if_pos (by norm_num [LOCK_TIMEOUT_MS] : (0 : Nat) < LOCK_TIMEOUT_MS)]
    dsimp only
    exact ⟨rfl, rfl, rfl⟩
  · intro now st h
    exact acquireLoop_unparsable (LOCK_TIMEOUT_MS / 50 + 2) now now st h

/-- C8 witness for the amended claim: a marker stamped 0 inspected at time
40000 is reclaimed and acquisition succeeds; a marker with unparsable
content is left in place and acquisition is denied. -/
theorem c8_witness :
    ((acquireLock 40000 ⟨.absent, [], .absent, some (some 0), none, 0⟩).1 = true ∧
     (acquireLock 40000 ⟨.absent, [], .absent, some (some 0), none, 0⟩).2.1.lockFile =
       some (some 40000) ∧
     (acquireLock 40000 ⟨.absent, [], .absent, some (some 0), none, 0⟩).2.2 =
       [Event.lockAcquire]) ∧
    (acquireLock 5 ⟨.absent, [], .absent, some none, none, 1⟩).1 = false ∧
    (acquireLock 5 ⟨.absent, [], .absent, some none, none, 1⟩).2.1.lockFile =
      some none :=
  ⟨c8_lock_reclamation_amended.1 40000 0
     ⟨.absent, [], .absent, some (some 0), none, 0⟩ rfl (by decide),
   c8_lock_reclamation_amended.2 5 ⟨.absent, [], .absent, some none, none, 1⟩ rfl⟩

/- ## Ledger writes and the lock -/

theorem batches_singleton : batches ["v1"] = [["v1"]] := by
  have h0 : batches ([] : List String) = [] := by
    rw [batches]
    simp
  rw [batches]
  simp [h0]

/-- C6 counterexample: a concrete successful fetch run of
loadPlaylistWithCache writes the ledger (a writeMetadata event occurs)
with no lock acquisition anywhere in its trace, because the success path
persists metadata through the synchronous saveMetadata, which never takes
the lock — refuting the claim that the ledger is written only while the
lock is held. -/
theorem c6_counterexample :
    Event.writeMetadata ∈
      (loadPlaylistWithCache 0 ⟨.absent, [], .absent, none, none, 0⟩
        ⟨[["v1"]], false, fun _ => some sampleVideo, false⟩
        "PL1" "Lessons" ⟨1000, false, false, false⟩).events ∧
    ledgerWritesLocked
      (loadPlaylistWithCache 0 ⟨.absent, [], .absent, none, none, 0⟩
        ⟨[["v1"]], false, fun _ => some sampleVideo, false⟩
        "PL1" "Lessons" ⟨1000, false, false, false⟩).events = false := by
  have hev : (loadPlaylistWithCache 0 ⟨.absent, [], .absent, none, none, 0⟩
      ⟨[["v1"]], false, fun _ => some sampleVideo, false⟩
      "PL1" "Lessons" ⟨1000, false, false, false⟩).events =
      [Event.netListPage, Event.netDetails ["v1"], Event.writeSnapshot "PL1",
       Event.writeMetadata] := by
    simp [loadPlaylistWithCache, getMetadata, getMetadataFromDisk, getCachedPlaylist,
      readPlaylistFile, recordLookup, cacheHit, fetchPlaylistItems,
      fetchPlaylistItemsLoop, fetchVideoDetails, batches_singleton,
      fetchVideoDetailsLoop, saveMetadata, emptyMetadata]
  rw [hev]
  exact ⟨by decide, rfl⟩

/-- C6 amended: only the saveMetadataAsync path writes the ledger under
the lock (its trace is lock-bracketed); the synchronous saveMetadata path
— the one loadPlaylistWithCache actually calls — writes the ledger
without acquiring the lock, relying on re-read-merge and the atomic
rename instead. -/
theorem c6_ledger_lock_amended (now : Nat) (st : CacheState)
    (metadata : CacheMetadata) :
    ledgerWritesLocked (saveMetadataAsync now st metadata).2 = true ∧
    (saveMetadata now st metadata).2 = [Event.writeMetadata] := by
  refine ⟨?_, rfl⟩
  unfold saveMetadataAsync
  cases hg : (acquireLock now st).1 with
  | true =>
    have hev : (acquireLock now st).2.2 = [Event.lockAcquire] := by
      unfold acquireLock at hg ⊢
      exact (acquireLoop_events (LOCK_TIMEOUT_MS / 50 + 2) now now st).1 hg
    simp only [hg, if_true, hev]
    rfl
  | false =>
    have hev : (acquireLock now st).2.2 = [] := by
      unfold acquireLock at hg ⊢
      exact (acquireLoop_events (LOCK_TIMEOUT_MS / 50 + 2) now now st).2 hg
    simp only [hg, if_false, hev]
    rfl

end YoutubeCache
